import Mathlib

/-!
Verification of the `sqlalchemy-json-querybuilder` expression compiler
(`src/lib/sqlalchemy_json_querybuilder/querybuilder/search.py`).

JSON-shaped filter specifications are modelled by `PyVal` (Python values as
they appear after JSON decoding: dicts keep key insertion order, which the
source inspects via `list(filter_by.keys())[0]`).  Compiled SQLAlchemy
expressions are modelled by the `Pred` tree.  Fallible Python code is
modelled with `Except PyErr`.
-/

namespace QueryBuilder

/-- A Python value as it occurs in a decoded JSON filter specification.
Dicts are ordered association lists (Python dicts preserve insertion order and
have unique keys; the embedding never needs to merge duplicate keys because
lookups return the first match, exactly as a Python dict built from unique
keys behaves). -/
inductive PyVal where
  | vNone : PyVal
  | vStr (s : String) : PyVal
  | vInt (n : Int) : PyVal
  | vBool (b : Bool) : PyVal
  | vList (xs : List PyVal) : PyVal
  | vDict (entries : List (String × PyVal)) : PyVal

/-- Python exceptions that the translated code can raise. -/
inductive PyErr where
  | attributeError (detail : String) : PyErr
  | keyError (key : String) : PyErr
  | valueError (detail : String) : PyErr
  | typeError (detail : String) : PyErr
  | indexError (detail : String) : PyErr
  | unknownOperator (op : String) : PyErr
  | sqlAlchemyError (code : String) (fields : List PyVal) : PyErr

/-- A compiled SQLAlchemy boolean expression, as built by `Criterion.eval`,
`and_` and `or_`.  `leaf` is a comparison of a model field against a literal;
`relp` is a relationship wrapper (`has` / `any`) around an already compiled
sub-predicate; `leafSub` and `relLit` cover the remaining operator/value
pairings so that the operator table is total; `pAnd` / `pOr` are the n-ary
SQLAlchemy `and_` / `or_` clause lists. -/
inductive Pred where
  | leaf (cls field op : String) (value : PyVal) : Pred
  | leafSub (cls field op : String) (sub : Pred) : Pred
  | relp (cls field op : String) (sub : Pred) : Pred
  | relLit (cls field op : String) (value : PyVal) : Pred
  | pAnd (args : List Pred) : Pred
  | pOr (args : List Pred) : Pred

/-- Result of `Search.__build_expressions__`: either a single combined
expression (combinator branch, `func(*subqueries)`) or the uncombined list of
leaf expressions (criterion branch returns `expressions`, a Python list). -/
inductive BuildResult where
  | single (p : Pred) : BuildResult
  | many (ps : List Pred) : BuildResult

/-- The `field_value` argument handed to `Criterion`: either the original
literal, or the compiled predicate obtained by recursively evaluating a
nested criterion. -/
inductive CritValue where
  | lit (v : PyVal) : CritValue
  | pred (p : Pred) : CritValue

/-- Python `d[k]` on an (insertion-ordered) dict: first matching key wins,
`KeyError` when absent. -/
def dictItem (kvs : List (String × PyVal)) (k : String) : Except PyErr PyVal :=
  match kvs with
  | [] => .error (.keyError k)
  | (k', v) :: rest => if k' = k then .ok v else dictItem rest k

/-- Python `d.get(k, dflt)`. -/
def dictGet (kvs : List (String × PyVal)) (k : String) (dflt : PyVal) : PyVal :=
  match kvs with
  | [] => dflt
  | (k', v) :: rest => if k' = k then v else dictGet rest k dflt

/-- Index of the last occurrence of a dot in a character list
(Python `s.rindex(ch)` without the exception). -/
def rindexDot (cs : List Char) : Option Nat :=
  match cs with
  | [] => none
  | c :: rest =>
    match rindexDot rest with
    | some i => some (i + 1)
    | none => if c = '.' then some 0 else none

/-- The split performed in `__eval_criterion__` (lines 82-83) and in the
ordering loop of `query` (lines 126-127): the prefix before the last dot and
the suffix after it; `str.rindex` raises `ValueError` when no dot occurs. -/
def splitLastDot (s : String) : Except PyErr (String × String) :=
  match rindexDot s.toList with
  | none => .error (.valueError "substring not found")
  | some i => .ok ((s.toList.take i).asString, (s.toList.drop (i + 1)).asString)

theorem rindexDot_of_mem {cs : List Char} (h : '.' ∈ cs) :
    ∃ i, rindexDot cs = some i := by
  induction cs with
  | nil => simp at h
  | cons c rest ih =>
    match hr : rindexDot rest with
    | some i => exact ⟨i + 1, by simp [rindexDot, hr]⟩
    | none =>
      have hc : c = '.' := by
        rcases List.mem_cons.mp h with h1 | h2
        · exact h1.symm
        · exact absurd (ih h2) (by simp [hr])
      exact ⟨0, by simp [rindexDot, hr, hc]⟩

theorem rindexDot_spec {cs : List Char} {i : Nat} (h : rindexDot cs = some i) :
    cs.take i ++ '.' :: cs.drop (i + 1) = cs ∧ '.' ∉ cs.drop (i + 1) := by
  induction cs generalizing i with
  | nil => simp [rindexDot] at h
  | cons c rest ih =>
    match hr : rindexDot rest with
    | some j =>
      simp [rindexDot, hr] at h
      subst h
      obtain ⟨h1, h2⟩ := ih hr
      constructor
      · simpa using h1
      · simpa using h2
    | none =>
      by_cases hc : c = '.'
      · simp [rindexDot, hr, hc] at h
        subst h
        subst hc
        refine ⟨by simp, ?_⟩
        intro hmem
        exact absurd (rindexDot_of_mem (by simpa using hmem)) (by simp [hr])
      · simp [rindexDot, hr, hc] at h

/-- Modelled from the spec: the ModelRegistry (spec section 3) is an external
collaborator missing from src/ — a mapping from a full dotted class path
(module namespace plus entity name, as assembled by `commons.load_class`
from the module name, a dot and the entity class name) to the attribute names
(scalar fields and relationships) of that entity type. -/
structure ModelRegistry where
  classes : List (String × List String)

/-- Modelled from the spec: `commons.load_class` (missing from src/) loads an
entity type by its dotted path; per spec section 4.1 a failure to load the
entity surfaces as a resolution failure, which the only handler in
`__eval_criteria__` catches as an `AttributeError`. On success it yields the
declared attribute names of the class. -/
def loadClass (reg : ModelRegistry) (path : String) : Except PyErr (List String) :=
  match reg.classes.lookup path with
  | some attrs => .ok attrs
  | none => .error (.attributeError path)

/-- Modelled from the spec: the comparison operators of the Operator Table
(spec section 4.2 names `eq`, `contains`, `>`, `>=`, `<`, `<=`, `startswith`,
an open-ended list; the claims only exercise the named ones). -/
def comparisonOperators : List String :=
  ["eq", "contains", ">", ">=", "<", "<=", "startswith"]

/-- Modelled from the spec: the relational operators of the Operator Table
(spec section 4.2): `has` for to-one relationships, `any` for to-many. -/
def relationalOperators : List String := ["has", "any"]

/-- Modelled from the spec: `Criterion(m_cls, field_name, field_value,
operator).eval()` (class `Criterion` is missing from src/). Per spec section
4.1 the attribute is looked up on the entity type and a missing attribute is
a resolution failure (an `AttributeError`, the exception the caller in
`__eval_criteria__` catches); per section 4.2 the operator name is then
dispatched through the Operator Table, an unrecognized name being fatal, and
the resulting predicate compares the resolved field with the value (a literal
for comparison operators, an already compiled sub-predicate for relational
ones). -/
def criterionEval (attrs : List String) (cls field : String) (value : CritValue)
    (op : PyVal) : Except PyErr Pred :=
  if field ∈ attrs then
    match op with
    | .vStr o =>
      if o ∈ relationalOperators then
        match value with
        | .pred s => .ok (.relp cls field o s)
        | .lit v => .ok (.relLit cls field o v)
      else if o ∈ comparisonOperators then
        match value with
        | .lit v => .ok (.leaf cls field o v)
        | .pred s => .ok (.leafSub cls field o s)
      else .error (.unknownOperator o)
    | _ => .error (.unknownOperator "operator name is not a string")
  else .error (.attributeError field)

mutual

/-- Translation of `Search.__eval_criterion__` (search.py lines 54-89),
instrumented with a construction trace: the second component records, in
execution order, each predicate returned by a `criterion.eval()` call.  The
steps mirror the source statements in order: split `field_name` at its last
dot (lines 82-83), load the model class (line 84), recursively evaluate a
dict-shaped `field_value` first (lines 86-87: Python evaluates the three
subscripts left to right, so the three lookups run — each able to raise
`KeyError` — before the recursive call, which `evalFieldValue` then performs
on the found entry), then build and evaluate the `Criterion` (lines 88-89). -/
def evalCriterionT (reg : ModelRegistry) (module : String)
    (fieldName fieldValue operator : PyVal) : Except PyErr (Pred × List Pred) :=
  match fieldName with
  | .vStr fn =>
    match splitLastDot fn with
    | .error e => .error e
    | .ok (mClsName, field) =>
      match loadClass reg (module ++ "." ++ mClsName) with
      | .error e => .error e
      | .ok attrs =>
        match fieldValue with
        | .vDict kvs =>
          match dictItem kvs "field_name" with
          | .error e => .error e
          | .ok nfn =>
            match dictItem kvs "field_value" with
            | .error e => .error e
            | .ok _ =>
              match dictItem kvs "operator" with
              | .error e => .error e
              | .ok nop =>
                match evalFieldValue reg module kvs nfn nop with
                | .error e => .error e
                | .ok (sub, subTrace) =>
                  match criterionEval attrs mClsName field (.pred sub) operator with
                  | .error e => .error e
                  | .ok p => .ok (p, subTrace ++ [p])
        | v =>
          match criterionEval attrs mClsName field (.lit v) operator with
          | .error e => .error e
          | .ok p => .ok (p, [p])
  | _ => .error (.attributeError "rindex")

/-- The recursive call of line 87 on the `field_value` entry of the nested
criterion mapping: walk to the first entry keyed `field_value` and evaluate
the enclosed criterion (the `field_name` and `operator` subscript values are
passed along).  The empty case cannot be reached from `evalCriterionT`, which
has already looked the key up; it reports the same `KeyError` the subscript
would. -/
def evalFieldValue (reg : ModelRegistry) (module : String) :
    List (String × PyVal) → PyVal → PyVal → Except PyErr (Pred × List Pred)
  | [], _, _ => .error (.keyError "field_value")
  | (k, v) :: rest, nfn, nop =>
    if k = "field_value" then evalCriterionT reg module nfn v nop
    else evalFieldValue reg module rest nfn nop

end

/-- `Search.__eval_criterion__` proper: the predicate component of the traced
translation. -/
def evalCriterion (reg : ModelRegistry) (module : String)
    (fieldName fieldValue operator : PyVal) : Except PyErr Pred :=
  Except.map Prod.fst (evalCriterionT reg module fieldName fieldValue operator)

/-- The loop of `Search.__eval_criteria__` (lines 95-101): evaluate each
criterion, collecting predicates; an `AttributeError` is caught and the
criterion `field_name` (default the string "unknown") is appended to
`error_fields`; any other exception propagates.  A non-dict criterion raises
`AttributeError` at `criterion.get` inside the `try`, and the handler then
raises the same `AttributeError` again at its own `criterion.get`, uncaught. -/
def evalCriteriaItems (reg : ModelRegistry) (module : String) :
    List PyVal → Except PyErr (List Pred × List PyVal)
  | [] => .ok ([], [])
  | c :: rest =>
    match c with
    | .vDict kvs =>
      match evalCriterion reg module (dictGet kvs "field_name" .vNone)
          (dictGet kvs "field_value" .vNone) (dictGet kvs "operator" .vNone) with
      | .ok p =>
        Except.map (fun r => (p :: r.1, r.2)) (evalCriteriaItems reg module rest)
      | .error (.attributeError _) =>
        Except.map (fun r => (r.1, dictGet kvs "field_name" (.vStr "unknown") :: r.2))
          (evalCriteriaItems reg module rest)
      | .error e => .error e
    | _ => .error (.attributeError "get")

/-- `Search.__eval_criteria__` (lines 91-102): a non-list argument is wrapped
into a one-element list before the loop. -/
def evalCriteria (reg : ModelRegistry) (module : String) (criteria : PyVal) :
    Except PyErr (List Pred × List PyVal) :=
  match criteria with
  | .vList xs => evalCriteriaItems reg module xs
  | c => evalCriteriaItems reg module [c]

/-- The criterion branch of `Search.__build_expressions__` (lines 150-154):
evaluate the mapping as a single leaf criterion; when `error_fields` is
non-empty raise the single aggregate `SqlAlchemyException` carrying
`ErrorCode.INVALID_FIELD` and every collected field, otherwise return the
(uncombined) expression list. -/
def leafExpressions (reg : ModelRegistry) (module : String) (fb : PyVal) :
    Except PyErr BuildResult :=
  match evalCriteria reg module fb with
  | .error e => .error e
  | .ok (exprs, errorFields) =>
    if errorFields.length > 0 then .error (.sqlAlchemyError "INVALID_FIELD" errorFields)
    else .ok (.many exprs)

mutual

/-- Translation of `Search.__build_expressions__` (lines 135-154).  A bare
list is first rebound to a one-key and-mapping (lines 136-137) and then, the
key being `and`, dispatched to `__build_sql_sequence__` with `and_` — the
translation performs that dispatch directly on the list so that the recursion
is visibly decreasing.  For a mapping, `operator = list(filter_by.keys())[0]`
(line 144) inspects only the first key: `and` / `or` dispatch to
`__build_sql_sequence__` on `filter_by[operator]` (the value of that first
key), anything else treats the whole mapping as one leaf criterion.  An empty
mapping raises `IndexError` at `[0]`; a value that is neither a list nor a
mapping raises `AttributeError` at `.keys()`. -/
def buildExpressions (reg : ModelRegistry) (module : String) (filterBy : PyVal) :
    Except PyErr BuildResult :=
  match filterBy with
  | .vList xs =>
    Except.map BuildResult.single (buildSqlSequence reg module (.vList xs) Pred.pAnd)
  | .vDict [] => .error (.indexError "list index out of range")
  | .vDict ((k, v) :: rest) =>
    if k = "and" then
      Except.map BuildResult.single (buildSqlSequence reg module v Pred.pAnd)
    else if k = "or" then
      Except.map BuildResult.single (buildSqlSequence reg module v Pred.pOr)
    else
      leafExpressions reg module (.vDict ((k, v) :: rest))
  | _ => .error (.attributeError "keys")
termination_by (sizeOf filterBy, 2)

/-- Translation of `Search.__build_sql_sequence__` (lines 156-162): iterate
over the node (in a JSON-decoded filter specification the iterable node is a
list; anything else raises `TypeError`), then apply the boolean operator once
over the accumulated `subqueries`. -/
def buildSqlSequence (reg : ModelRegistry) (module : String) (node : PyVal)
    (func : List Pred → Pred) : Except PyErr Pred :=
  match node with
  | .vList xs => Except.map func (buildSeqLoop reg module xs [])
  | _ => .error (.typeError "object is not iterable")
termination_by (sizeOf node, 1)

/-- The loop body of `__build_sql_sequence__` (lines 158-160): compile each
child; a list result (`.many`, from a leaf-criterion branch) is spliced via
`extend`, a single expression is appended. -/
def buildSeqLoop (reg : ModelRegistry) (module : String) (vals : List PyVal)
    (subqueries : List Pred) : Except PyErr (List Pred) :=
  match vals with
  | [] => .ok subqueries
  | v :: rest =>
    match buildExpressions reg module v with
    | .error e => .error e
    | .ok (.single p) => buildSeqLoop reg module rest (subqueries ++ [p])
    | .ok (.many ps) => buildSeqLoop reg module rest (subqueries ++ ps)
termination_by (sizeOf vals, 0)

end

/-- The Python shape of a `__build_expressions__` result: a `.many` result is
the list itself, a `.single` result a one-element list (used to state the
splice property of `__build_sql_sequence__`). -/
def BuildResult.toList : BuildResult → List Pred
  | .single p => [p]
  | .many ps => ps

/-- Flat, in-order concatenation of per-child compilation results: the
specification-side description of what the `extend` / `append` loop of
`__build_sql_sequence__` accumulates. -/
def childExprs (reg : ModelRegistry) (module : String) :
    List PyVal → Except PyErr (List Pred)
  | [] => .ok []
  | v :: rest =>
    match buildExpressions reg module v with
    | .error e => .error e
    | .ok r => Except.map (fun ps => r.toList ++ ps) (childExprs reg module rest)

/-- The filter-construction half of `Search.query` (lines 109-118): a list
`filter_by` is compiled as one expression and passed to `filter`; otherwise
the `or` and `and` branches are read with `.get` (default `[]`), compiled
independently as one-key or- and and-mappings, and the two filter
arguments `or_(or_expression)` and `and_(and_expression)` are attached.  The
result is the list of arguments given to `filter` (the query backend conjoins
them).  A `filter_by` that is neither a list nor a mapping raises
`AttributeError` at `.get`; an expression list reaching `filter` or `or_` is
a backend argument error. -/
def queryFilters (reg : ModelRegistry) (module : String) (filterBy : PyVal) :
    Except PyErr (List Pred) :=
  match filterBy with
  | .vList xs =>
    match buildExpressions reg module (.vList xs) with
    | .error e => .error e
    | .ok (.single p) => .ok [p]
    | .ok (.many _) => .error (.typeError "filter argument is a list")
  | .vDict kvs =>
    match buildExpressions reg module (.vDict [("or", dictGet kvs "or" (.vList []))]) with
    | .error e => .error e
    | .ok orResult =>
      match buildExpressions reg module
          (.vDict [("and", dictGet kvs "and" (.vList []))]) with
      | .error e => .error e
      | .ok andResult =>
        match orResult, andResult with
        | .single oe, .single ae => .ok [Pred.pOr [oe], Pred.pAnd [ae]]
        | _, _ => .error (.typeError "clause argument is a list")
  | _ => .error (.attributeError "get")

/-- One compiled ordering expression: `getattr(getattr(m_cls, field_name),
direction)()` from lines 129-130. -/
structure OrderExpr where
  cls : String
  field : String
  direction : String
deriving DecidableEq

/-- Python `tok.startswith('-')` (line 124): the token begins with a dash. -/
def startsWithDash (s : String) : Bool :=
  match s.toList with
  | '-' :: _ => true
  | _ => false

/-- Python `tok.replace('-', '', 1)` (line 125): drop the first occurrence of
the dash, wherever it is. -/
def removeFirstDash : List Char → List Char
  | [] => []
  | c :: rest => if c = '-' then rest else c :: removeFirstDash rest

/-- The body of the ordering loop of `Search.query` (lines 123-130): the
direction is `desc` exactly when the token starts with a dash (line 124), the
first dash is removed (line 125), the remaining path is split at its last dot
(lines 126-127), the class is loaded (line 128) and the attribute looked up
(line 129, `AttributeError` when absent, raised immediately — ordering
failures are not aggregated). -/
def orderExprOf (reg : ModelRegistry) (module : String) (tok : String) :
    Except PyErr OrderExpr :=
  let direction := if startsWithDash tok then "desc" else "asc"
  let path := (removeFirstDash tok.toList).asString
  match splitLastDot path with
  | .error e => .error e
  | .ok (mClsName, field) =>
    match loadClass reg (module ++ "." ++ mClsName) with
    | .error e => .error e
    | .ok attrs =>
      if field ∈ attrs then .ok ⟨mClsName, field, direction⟩
      else .error (.attributeError field)

/-- The ordering loop of `Search.query` (lines 122-130), accumulating
`order_by_expressions` in token order. -/
def buildOrderingLoop (reg : ModelRegistry) (module : String) (tokens : List String)
    (acc : List OrderExpr) : Except PyErr (List OrderExpr) :=
  match tokens with
  | [] => .ok acc
  | t :: ts =>
    match orderExprOf reg module t with
    | .error e => .error e
    | .ok e => buildOrderingLoop reg module ts (acc ++ [e])

/-- The ordering expressions attached by `Search.query`, first token first
(the primary sort key). -/
def buildOrdering (reg : ModelRegistry) (module : String) (tokens : List String) :
    Except PyErr (List OrderExpr) :=
  buildOrderingLoop reg module tokens []

/-- The state held by a `Search` instance (constructor, lines 27-35).
`page` and `per_page` are the non-negative pagination parameters of the input
format (spec section 6: `page` is a 1-based int, `per_page` an int, both at
least 1); `session` is the external backend handle and lives in
`QueryBackend`. -/
structure SearchState where
  model_classes : List String
  filter_by : PyVal
  order_by : List String
  page : Nat
  per_page : Nat
  all : Bool
  window_size : Option Nat
  model_module : String

/-- `Search.query` (lines 104-133) without the external execution: the filter
arguments and the ordering expressions compiled from the held state, in
source order (filters first, ordering second).  `self.order_by or []` is the
identity on the list model of `order_by`. -/
def queryCompiled (reg : ModelRegistry) (s : SearchState) :
    Except PyErr (List Pred × List OrderExpr) :=
  match queryFilters reg s.model_module s.filter_by with
  | .error e => .error e
  | .ok fs =>
    match buildOrdering reg s.model_module s.order_by with
    | .error e => .error e
    | .ok os => .ok (fs, os)

/-- Modelled from the spec: the external query backend (spec section 6) —
given the selected entities, the conjoined filter arguments and the ordering
directives, executing the compiled query yields the filtered, ordered row
sequence; `count` is the length of that unsliced sequence and `slice` is an
offset/limit window over it. -/
structure QueryBackend (α : Type) where
  rows : List String → List Pred → List OrderExpr → List α

/-- Python / SQLAlchemy `query.slice(start, stop)` on the row-sequence model:
the half-open window from `start` (inclusive) to `stop` (exclusive). -/
def listSlice (start stop : Nat) (xs : List α) : List α :=
  (xs.drop start).take (stop - start)

/-- Translation of the `Search.results` property (lines 37-52) with explicit
state passing: compile the query from the held state, count the full filtered
result set, slice to `[per_page * (page - 1), per_page * page)` unless `all`
is set, and return the data/count pair together with the (never reassigned)
state.  A compilation exception propagates to the caller, likewise leaving
the state untouched. -/
def searchResults (reg : ModelRegistry) (b : QueryBackend α) (s : SearchState) :
    Except PyErr (List α × Nat) × SearchState :=
  match queryCompiled reg s with
  | .error e => (.error e, s)
  | .ok (fs, os) =>
    let querySet := b.rows s.model_classes fs os
    let count := querySet.length
    let data :=
      if s.all then querySet
      else listSlice (s.per_page * (s.page - 1)) (s.per_page * s.page) querySet
    (.ok (data, count), s)

mutual

/-- Modelled from the spec: the truth value the query backend assigns to a
compiled predicate at one candidate row (spec section 6, boolean
predicate composition).  `L` interprets the non-combinator predicates;
`and_` is the conjunction of its clauses and `or_` the disjunction, an empty
clause list being neutral — a no-op combination that constrains nothing
(spec sections 4.4 and 8). -/
def Pred.holds (L : Pred → Bool) : Pred → Bool
  | .pAnd args => Pred.holdsAll L args
  | .pOr args => args.isEmpty || Pred.holdsAny L args
  | p => L p

/-- Conjunction of clause truth values (empty: neutral, true). -/
def Pred.holdsAll (L : Pred → Bool) : List Pred → Bool
  | [] => true
  | p :: ps => Pred.holds L p && Pred.holdsAll L ps

/-- Disjunction of clause truth values over a non-empty clause list. -/
def Pred.holdsAny (L : Pred → Bool) : List Pred → Bool
  | [] => false
  | p :: ps => Pred.holds L p || Pred.holdsAny L ps

end

/-- Modelled from the spec: a row passes the compiled filter when every
argument handed to `filter` holds (the backend conjoins the filter
arguments). -/
def filterPasses (L : Pred → Bool) (args : List Pred) : Bool :=
  Pred.holdsAll L args


theorem buildSeqLoop_eq_childExprs (reg : ModelRegistry) (module : String)
    (vals : List PyVal) (acc : List Pred) :
    buildSeqLoop reg module vals acc =
      Except.map (fun ps => acc ++ ps) (childExprs reg module vals) := by
  induction vals generalizing acc with
  | nil => simp [buildSeqLoop, childExprs, Except.map]
  | cons v rest ih =>
    rw [buildSeqLoop, childExprs]
    cases h : buildExpressions reg module v with
    | error e => simp [Except.map]
    | ok r =>
      cases r with
      | single p =>
        cases hc : childExprs reg module rest with
        | error e => simp [ih, hc, BuildResult.toList, Except.map]
        | ok ps => simp [ih, hc, BuildResult.toList, Except.map]
      | many qs =>
        cases hc : childExprs reg module rest with
        | error e => simp [ih, hc, BuildResult.toList, Except.map]
        | ok ps => simp [ih, hc, BuildResult.toList, Except.map]

/-- C3: compiling a bare criterion list is structurally identical to
compiling the same list wrapped in an explicit and-node — a bare sequence is
normalized to an implicit AND combinator before compilation. -/
theorem bareList_eq_explicitAnd (reg : ModelRegistry) (module : String)
    (xs : List PyVal) :
    buildExpressions reg module (.vList xs) =
      buildExpressions reg module (.vDict [("and", .vList xs)]) := by
  rw [buildExpressions, buildExpressions]
  simp

/-- C7: compiling a combinator node compiles each child recursively, splices
(flattens) any child result that is itself a list of predicates into the
argument list, and applies the single n-ary operator `func` exactly once over
the flattened collection — no binary tree is built. -/
theorem seq_flattens (reg : ModelRegistry) (module : String) (xs : List PyVal)
    (func : List Pred → Pred) :
    buildSqlSequence reg module (.vList xs) func =
      Except.map func (childExprs reg module xs) := by
  rw [buildSqlSequence]
  rw [buildSeqLoop_eq_childExprs]
  cases childExprs reg module xs <;> simp [Except.map]

/-- C9: an invocation of `results` leaves the held `Search` state unchanged
(every field), and a repeated invocation from the returned state recompiles
from that same state and yields the identical result — no caching of
compiled expressions. -/
theorem results_frame (α : Type) (reg : ModelRegistry) (b : QueryBackend α)
    (s : SearchState) :
    (searchResults reg b s).2 = s ∧
      searchResults reg b (searchResults reg b s).2 = searchResults reg b s := by
  cases h : queryCompiled reg s <;> simp [searchResults, h]

/-- C10: expression building dispatches on the first key of a mapping only:
a first key `and` / `or` compiles the node as that combinator on the value of
that first key regardless of the remaining entries, and any other first key
treats the entire mapping as a single leaf criterion even when an
`and` / `or` key occurs later in the mapping. -/
theorem dispatch_first_key (reg : ModelRegistry) (module : String) (v : PyVal)
    (rest : List (String × PyVal)) (k : String) :
    (buildExpressions reg module (.vDict (("and", v) :: rest)) =
      Except.map BuildResult.single (buildSqlSequence reg module v Pred.pAnd)) ∧
    (buildExpressions reg module (.vDict (("or", v) :: rest)) =
      Except.map BuildResult.single (buildSqlSequence reg module v Pred.pOr)) ∧
    (k ≠ "and" → k ≠ "or" →
      buildExpressions reg module (.vDict ((k, v) :: rest)) =
        leafExpressions reg module (.vDict ((k, v) :: rest))) := by
  refine ⟨?_, ?_, ?_⟩
  · rw [buildExpressions]; simp
  · rw [buildExpressions]; simp
  · intro h1 h2
    rw [buildExpressions]
    simp [h1, h2]



theorem toList_asString (l : List Char) : (List.asString l).toList = l := rfl

/-- C8: a dotted field-path token containing at least one dot is split at
its LAST dot: `splitLastDot` (the function used both for criterion field
paths in `__eval_criterion__` and for ordering field paths in `query`)
returns the prefix before the last dot as the entity name and the dot-free
suffix after it as the attribute name. -/
theorem lastDotSplit (s : String) (h : '.' ∈ s.toList) :
    ∃ p q : String, splitLastDot s = .ok (p, q) ∧
      p.toList ++ '.' :: q.toList = s.toList ∧ '.' ∉ q.toList := by
  obtain ⟨i, hi⟩ := rindexDot_of_mem h
  obtain ⟨h1, h2⟩ := rindexDot_spec hi
  have hi' : rindexDot s.data = some i := hi
  refine ⟨(s.toList.take i).asString, (s.toList.drop (i + 1)).asString, ?_, ?_, ?_⟩
  · simp [splitLastDot, hi']
  · simpa [toList_asString] using h1
  · simpa [toList_asString] using h2

theorem lastDotSplit_witness :
    ('.' ∈ "Entity.field".toList) ∧
      (∃ p q : String, splitLastDot "Entity.field" = .ok (p, q) ∧
        p.toList ++ '.' :: q.toList = "Entity.field".toList ∧ '.' ∉ q.toList) :=
  ⟨by decide, lastDotSplit "Entity.field" (by decide)⟩

/-- C6: with `all = false`, `page ≥ 1` and `per_page ≥ 1`, `results` returns
the filtered row sequence sliced to the half-open window
`[(page-1)*per_page, page*per_page)` with the count taken over the full
unsliced sequence; a page past the last record yields empty data with the
count unchanged; with `all = true` no slicing is applied. -/
theorem pagination (α : Type) (reg : ModelRegistry) (b : QueryBackend α)
    (s : SearchState) (fs : List Pred) (os : List OrderExpr)
    (hp : 1 ≤ s.page) (hpp : 1 ≤ s.per_page)
    (hq : queryCompiled reg s = .ok (fs, os)) :
    (s.all = false →
      (searchResults reg b s).1 =
        .ok (((b.rows s.model_classes fs os).drop (s.per_page * (s.page - 1))).take
          s.per_page, (b.rows s.model_classes fs os).length)) ∧
    (s.all = false →
      (b.rows s.model_classes fs os).length ≤ s.per_page * (s.page - 1) →
      (searchResults reg b s).1 = .ok ([], (b.rows s.model_classes fs os).length)) ∧
    (s.all = true →
      (searchResults reg b s).1 =
        .ok (b.rows s.model_classes fs os, (b.rows s.model_classes fs os).length)) := by
  have hw : s.per_page * s.page - s.per_page * (s.page - 1) = s.per_page := by
    obtain ⟨k, hk⟩ := Nat.exists_eq_add_of_le hp
    have h1 : s.per_page * (1 + k) = s.per_page + s.per_page * k := by ring
    have h2 : (1 + k) - 1 = k := by omega
    rw [hk, h1, h2]
    omega
  refine ⟨?_, ?_, ?_⟩
  · intro hall
    simp [searchResults, hq, listSlice, hall, hw]
  · intro hall hlen
    have hdrop : (b.rows s.model_classes fs os).drop (s.per_page * (s.page - 1)) = [] :=
      List.drop_eq_nil_of_le hlen
    simp [searchResults, hq, listSlice, hall, hdrop]
  · intro hall
    simp [searchResults, hq, hall]

theorem pagination_witness :
    (1 ≤ 3 ∧ 1 ≤ 10) ∧
      (searchResults ⟨[]⟩
        (⟨fun _ _ _ => List.range 25⟩ : QueryBackend Nat)
        ⟨[], .vList [], [], 3, 10, false, none, "m"⟩).1 =
        .ok (((List.range 25).drop 20).take 10, 25) := by
  have hq : queryCompiled (⟨[]⟩ : ModelRegistry)
      (⟨[], .vList [], [], 3, 10, false, none, "m"⟩ : SearchState) =
      .ok ([Pred.pAnd []], []) := by
    simp [queryCompiled, queryFilters, buildExpressions, buildSqlSequence, buildSeqLoop,
      buildOrdering, buildOrderingLoop]
    rfl
  refine ⟨⟨by norm_num, by norm_num⟩, ?_⟩
  have h := (pagination Nat ⟨[]⟩ ⟨fun _ _ _ => List.range 25⟩
    ⟨[], .vList [], [], 3, 10, false, none, "m"⟩ [Pred.pAnd []] []
    (by norm_num) (by norm_num) hq).1 rfl
  simpa using h


/-- One ordering expression per token, in token order: the specification-side
description of what the ordering loop accumulates. -/
def orderedExprs (reg : ModelRegistry) (module : String) :
    List String → Except PyErr (List OrderExpr)
  | [] => .ok []
  | t :: ts =>
    match orderExprOf reg module t with
    | .error e => .error e
    | .ok e => Except.map (fun es => e :: es) (orderedExprs reg module ts)

theorem buildOrderingLoop_eq (reg : ModelRegistry) (module : String)
    (tokens : List String) (acc : List OrderExpr) :
    buildOrderingLoop reg module tokens acc =
      Except.map (fun es => acc ++ es) (orderedExprs reg module tokens) := by
  induction tokens generalizing acc with
  | nil => simp [buildOrderingLoop, orderedExprs, Except.map]
  | cons t ts ih =>
    rw [buildOrderingLoop, orderedExprs]
    cases h : orderExprOf reg module t with
    | error e => simp [Except.map]
    | ok e =>
      cases hm : orderedExprs reg module ts with
      | error e2 => simp [hm, ih, Except.map]
      | ok es => simp [hm, ih, Except.map]

/-- C5 (amended): ordering expressions are attached in token order, one per
token, the first-listed entry being the primary sort key; the direction is
descending exactly when the token carries a leading dash; the field path used
for resolution is the token with its FIRST dash occurrence removed (Python
`replace('-', '', 1)`), which coincides with stripping the leading sign
whenever the token contains no other dash. -/
theorem ordering_parse (reg : ModelRegistry) (module : String) :
    (∀ tokens, buildOrdering reg module tokens =
      orderedExprs reg module tokens) ∧
    (∀ tok e, orderExprOf reg module tok = .ok e →
      e.direction = (if startsWithDash tok then "desc" else "asc") ∧
      splitLastDot ((removeFirstDash tok.toList).asString) = .ok (e.cls, e.field)) := by
  constructor
  · intro tokens
    rw [buildOrdering, buildOrderingLoop_eq]
    cases orderedExprs reg module tokens <;> simp [Except.map]
  · intro tok e he
    rw [orderExprOf] at he
    split at he
    · exact absurd he (by simp)
    · rename_i mClsName field hs
      split at he
      · exact absurd he (by simp)
      · rename_i attrs hl
        split at he
        · rename_i hmem
          have he' := he
          simp at he'
          subst he'
          exact ⟨rfl, hs⟩
        · exact absurd he (by simp)

/-- C5 counterexample: for the ordering token "Entity.a-b", whose only dash
is not leading, the claim says the resolution path is the token unchanged
(field "a-b"); the code removes the first dash anywhere and resolves field
"ab" instead. -/
theorem ordering_dash_counterexample :
    buildOrdering ⟨[("m.Entity", ["ab", "a-b"])]⟩ "m" ["Entity.a-b"] =
      .ok [⟨"Entity", "ab", "asc"⟩] ∧
    (OrderExpr.mk "Entity" "ab" "asc" ≠ OrderExpr.mk "Entity" "a-b" "asc") := by
  constructor
  · simp [buildOrdering, buildOrderingLoop, orderExprOf, removeFirstDash,
      splitLastDot, rindexDot, loadClass, List.lookup]
    rfl
  · decide

theorem ordering_parse_witness :
    (buildOrdering ⟨[("m.Entity", ["created_at", "id"])]⟩ "m"
        ["-Entity.created_at", "Entity.id"] =
      orderedExprs ⟨[("m.Entity", ["created_at", "id"])]⟩ "m"
        ["-Entity.created_at", "Entity.id"]) ∧
    buildOrdering ⟨[("m.Entity", ["created_at", "id"])]⟩ "m"
        ["-Entity.created_at", "Entity.id"] =
      .ok [⟨"Entity", "created_at", "desc"⟩, ⟨"Entity", "id", "asc"⟩] := by
  refine ⟨(ordering_parse ⟨[("m.Entity", ["created_at", "id"])]⟩ "m").1 _, ?_⟩
  simp [buildOrdering, buildOrderingLoop, orderExprOf, removeFirstDash,
    splitLastDot, rindexDot, loadClass, List.lookup]
  rfl


/-- C4: a top-level mapping filter compiles its `or` and `and` branches
independently — OR applied to the or-branch children, AND to the and-branch
children — and conjoins the two branch results as the two arguments of
`filter`; both branches are compiled even when empty, and the filter
`{"or": [], "and": []}` compiles to a neutral predicate that holds at every
row. -/
theorem andOr_branches (reg : ModelRegistry) (module : String)
    (kvs : List (String × PyVal)) (oe ae : Pred)
    (hor : buildSqlSequence reg module (dictGet kvs "or" (.vList [])) Pred.pOr = .ok oe)
    (hand : buildSqlSequence reg module (dictGet kvs "and" (.vList [])) Pred.pAnd = .ok ae) :
    queryFilters reg module (.vDict kvs) = .ok [Pred.pOr [oe], Pred.pAnd [ae]] ∧
    queryFilters reg module (.vDict [("or", .vList []), ("and", .vList [])]) =
      .ok [Pred.pOr [Pred.pOr []], Pred.pAnd [Pred.pAnd []]] ∧
    (∀ L, filterPasses L [Pred.pOr [Pred.pOr []], Pred.pAnd [Pred.pAnd []]] = true) := by
  refine ⟨?_, ?_, ?_⟩
  · rw [queryFilters]
    rw [buildExpressions, buildExpressions]
    simp [hor, hand, Except.map]
  · rw [queryFilters]
    rw [buildExpressions, buildExpressions]
    simp [buildSqlSequence, buildSeqLoop, dictGet, Except.map]
  · intro L
    simp [filterPasses, Pred.holdsAll, Pred.holds, Pred.holdsAny]

theorem andOr_branches_witness :
    (buildSqlSequence (⟨[]⟩ : ModelRegistry) "m"
        (dictGet [("or", .vList []), ("and", .vList [])] "or" (.vList [])) Pred.pOr =
      .ok (Pred.pOr [])) ∧
    queryFilters ⟨[]⟩ "m" (.vDict [("or", .vList []), ("and", .vList [])]) =
      .ok [Pred.pOr [Pred.pOr []], Pred.pAnd [Pred.pAnd []]] := by
  have hor : buildSqlSequence (⟨[]⟩ : ModelRegistry) "m"
      (dictGet [("or", .vList []), ("and", .vList [])] "or" (.vList [])) Pred.pOr =
      .ok (Pred.pOr []) := by
    simp [buildSqlSequence, buildSeqLoop, dictGet, Except.map]
  have hand : buildSqlSequence (⟨[]⟩ : ModelRegistry) "m"
      (dictGet [("or", .vList []), ("and", .vList [])] "and" (.vList [])) Pred.pAnd =
      .ok (Pred.pAnd []) := by
    simp [buildSqlSequence, buildSeqLoop, dictGet, Except.map]
  exact ⟨hor, (andOr_branches ⟨[]⟩ "m" [("or", .vList []), ("and", .vList [])]
    (Pred.pOr []) (Pred.pAnd []) hor hand).1⟩

/-- C1 (code bug): evaluating the compiler at a sibling set of three
criteria of which two (`M.b1`, `M.b2`) reference non-existent fields raises
an aggregate error naming ONLY the first bad field — the dispatch in
`__build_sql_sequence__` hands each sibling separately to
`__eval_criteria__`, so the aggregation loop never sees more than one
criterion and the remaining siblings are never evaluated, contradicting the
claimed batch error that names every bad field path. -/
theorem invalid_fields_first_only :
    buildExpressions ⟨[("m.M", ["good"])]⟩ "m"
      (.vList
        [.vDict [("field_name", .vStr "M.b1"), ("field_value", .vInt 1),
          ("operator", .vStr "eq")],
         .vDict [("field_name", .vStr "M.good"), ("field_value", .vInt 2),
          ("operator", .vStr "eq")],
         .vDict [("field_name", .vStr "M.b2"), ("field_value", .vInt 3),
          ("operator", .vStr "eq")]]) =
      .error (.sqlAlchemyError "INVALID_FIELD" [.vStr "M.b1"]) ∧
    ([PyVal.vStr "M.b1"] ≠ [PyVal.vStr "M.b1", PyVal.vStr "M.b2"]) := by
  constructor
  · simp [buildExpressions, buildSqlSequence, buildSeqLoop, leafExpressions,
      evalCriteria, evalCriteriaItems, evalCriterion, evalCriterionT,
      dictGet, dictItem, splitLastDot, rindexDot, loadClass, criterionEval,
      comparisonOperators, relationalOperators, List.lookup]
    rfl
  · simp


theorem evalFieldValue_eq (reg : ModelRegistry) (module : String)
    (kvs : List (String × PyVal)) (nfn nop v : PyVal)
    (h : dictItem kvs "field_value" = .ok v) :
    evalFieldValue reg module kvs nfn nop = evalCriterionT reg module nfn v nop := by
  induction kvs with
  | nil => simp [dictItem] at h
  | cons hd rest ih =>
    obtain ⟨k, w⟩ := hd
    by_cases hk : k = "field_value"
    · subst hk
      simp [dictItem] at h
      subst h
      simp [evalFieldValue]
    · simp [dictItem, hk] at h
      simp [evalFieldValue, hk, ih h]

theorem evalCriterionT_last (reg : ModelRegistry) (module : String)
    (fn fv op : PyVal) (p : Pred) (tr : List Pred)
    (h : evalCriterionT reg module fn fv op = .ok (p, tr)) :
    tr ≠ [] ∧ tr.getLast? = some p := by
  cases fn with
  | vStr fns =>
    rw [evalCriterionT] at h
    repeat' split at h
    all_goals simp at h
    all_goals obtain ⟨h1, h2⟩ := h
    all_goals subst h1
    all_goals subst h2
    all_goals simp [List.getLast?_concat]
  | vNone => rw [evalCriterionT] at h; exacts [absurd h (by simp), by simp]
  | vInt n => rw [evalCriterionT] at h; exacts [absurd h (by simp), by simp]
  | vBool b => rw [evalCriterionT] at h; exacts [absurd h (by simp), by simp]
  | vList xs => rw [evalCriterionT] at h; exacts [absurd h (by simp), by simp]
  | vDict kvs => rw [evalCriterionT] at h; exacts [absurd h (by simp), by simp]


/-- C2: when a criterion value is itself a nested criterion mapping,
evaluation is depth-first and innermost-first: the nested criterion is
recursively evaluated to a compiled predicate whose construction events all
precede the enclosing predicate in the construction trace (the enclosing
predicate is appended last, and the nested sub-predicate is the last event of
the preceding sub-trace). -/
theorem nested_innermost_first (reg : ModelRegistry) (module : String)
    (fn : PyVal) (kvs : List (String × PyVal)) (op : PyVal) (p : Pred)
    (tr : List Pred)
    (h : evalCriterionT reg module fn (.vDict kvs) op = .ok (p, tr)) :
    ∃ nfn nfv nop sub subTr,
      dictItem kvs "field_name" = .ok nfn ∧
      dictItem kvs "field_value" = .ok nfv ∧
      dictItem kvs "operator" = .ok nop ∧
      evalCriterionT reg module nfn nfv nop = .ok (sub, subTr) ∧
      tr = subTr ++ [p] ∧ subTr ≠ [] ∧ subTr.getLast? = some sub := by
  cases fn with
  | vStr fns =>
    rw [evalCriterionT] at h
    repeat' split at h
    all_goals simp at h
    all_goals obtain ⟨h1, h2⟩ := h
    all_goals subst h1
    all_goals subst h2
    all_goals first
      | (rename_i x6 mCls fld hsplit x5 attrs hload fv0 kvs2 hkd x4 nfn hnfn
          x3 nfv hnfv x2 nop hnop x1 sub subTr hrec x0 p0 hcrit
         injection hkd with hk
         subst hk
         have hrec2 : evalCriterionT reg module nfn nfv nop = .ok (sub, subTr) :=
           (evalFieldValue_eq reg module kvs nfn nop nfv hnfv).symm.trans hrec
         exact ⟨nfn, nfv, nop, sub, subTr, hnfn, hnfv, hnop, hrec2, rfl,
           (evalCriterionT_last _ _ _ _ _ _ _ hrec2).1,
           (evalCriterionT_last _ _ _ _ _ _ _ hrec2).2⟩)
      | simp_all
  | vNone => rw [evalCriterionT] at h; exacts [absurd h (by simp), by simp]
  | vInt n => rw [evalCriterionT] at h; exacts [absurd h (by simp), by simp]
  | vBool b => rw [evalCriterionT] at h; exacts [absurd h (by simp), by simp]
  | vList xs => rw [evalCriterionT] at h; exacts [absurd h (by simp), by simp]
  | vDict kvs2 => rw [evalCriterionT] at h; exacts [absurd h (by simp), by simp]


def groupReg : ModelRegistry :=
  ⟨[("m.NotificationGroup", ["group_mappings"]),
    ("m.NotificationGroupMapping", ["recipient"]),
    ("m.Recipient", ["recipient_email"])]⟩

def innerKvs : List (String × PyVal) :=
  [("field_name", .vStr "Recipient.recipient_email"),
   ("field_value", .vStr "a"), ("operator", .vStr "contains")]

def midKvs : List (String × PyVal) :=
  [("field_name", .vStr "NotificationGroupMapping.recipient"),
   ("field_value", .vDict innerKvs), ("operator", .vStr "has")]

theorem nested_innermost_first_eval :
    evalCriterionT groupReg "m" (.vStr "NotificationGroup.group_mappings")
        (.vDict midKvs) (.vStr "any") =
      .ok (.relp "NotificationGroup" "group_mappings" "any"
             (.relp "NotificationGroupMapping" "recipient" "has"
               (.leaf "Recipient" "recipient_email" "contains" (.vStr "a"))),
           [.leaf "Recipient" "recipient_email" "contains" (.vStr "a"),
            .relp "NotificationGroupMapping" "recipient" "has"
              (.leaf "Recipient" "recipient_email" "contains" (.vStr "a")),
            .relp "NotificationGroup" "group_mappings" "any"
              (.relp "NotificationGroupMapping" "recipient" "has"
                (.leaf "Recipient" "recipient_email" "contains" (.vStr "a")))]) := by
  simp [evalCriterionT, splitLastDot, rindexDot, loadClass, dictItem,
    criterionEval, comparisonOperators, relationalOperators, List.lookup,
    groupReg, innerKvs, midKvs]
  rfl

theorem nested_innermost_first_witness :
    ∃ nfn nfv nop sub subTr,
      dictItem midKvs "field_name" = .ok nfn ∧
      dictItem midKvs "field_value" = .ok nfv ∧
      dictItem midKvs "operator" = .ok nop ∧
      evalCriterionT groupReg "m" nfn nfv nop = .ok (sub, subTr) ∧
      [Pred.leaf "Recipient" "recipient_email" "contains" (.vStr "a"),
       Pred.relp "NotificationGroupMapping" "recipient" "has"
         (.leaf "Recipient" "recipient_email" "contains" (.vStr "a")),
       Pred.relp "NotificationGroup" "group_mappings" "any"
         (.relp "NotificationGroupMapping" "recipient" "has"
           (.leaf "Recipient" "recipient_email" "contains" (.vStr "a")))] =
        subTr ++ [Pred.relp "NotificationGroup" "group_mappings" "any"
          (.relp "NotificationGroupMapping" "recipient" "has"
            (.leaf "Recipient" "recipient_email" "contains" (.vStr "a")))] ∧
      subTr ≠ [] ∧ subTr.getLast? = some sub :=
  nested_innermost_first groupReg "m" (.vStr "NotificationGroup.group_mappings")
    midKvs (.vStr "any") _ _ nested_innermost_first_eval


theorem dispatch_first_key_witness :
    ("field_name" ≠ "and") ∧
    buildExpressions ⟨[]⟩ "m"
        (.vDict [("field_name", .vStr "M.x"), ("and", .vList [])]) =
      leafExpressions ⟨[]⟩ "m"
        (.vDict [("field_name", .vStr "M.x"), ("and", .vList [])]) ∧
    leafExpressions ⟨[]⟩ "m"
        (.vDict [("field_name", .vStr "M.x"), ("and", .vList [])]) =
      .error (.sqlAlchemyError "INVALID_FIELD" [.vStr "M.x"]) := by
  refine ⟨by decide,
    (dispatch_first_key ⟨[]⟩ "m" (.vStr "M.x") [("and", .vList [])]
      "field_name").2.2 (by decide) (by decide), ?_⟩
  simp [leafExpressions, evalCriteria, evalCriteriaItems, evalCriterion,
    evalCriterionT, dictGet, dictItem, splitLastDot, rindexDot, loadClass,
    List.lookup]
  rfl

end QueryBuilder
